import Mathlib

/-!
Shallow embedding of the LakeSoul native-io core
(`src/native-io/lakesoul-io/src/sorted_merge/record_batch_builder.rs`,
`src/native-io/lakesoul-io/src/lakesoul_writer.rs`,
`src/native-io/lakesoul-io/src/filter/parser.rs`), together with theorems
settling the specification claims about it.

Conventions:
* raw bytes are modelled as `Nat` values (`Byte`);
* Rust panics (`assert!`, `panic!`, `unreachable!`, slice-index panics,
  `unwrap`) are modelled by `Option`/`Except` failure;
* arrow's `MutableBuffer` is modelled by its requested capacity plus its
  byte contents; capacity bookkeeping of the underlying allocator is kept
  as `max` of requests, which is all the source relies on.
-/

namespace LakeSoul

abbrev Byte := Nat

/-- arrow `TimeUnit` (only its shape matters to the embedded code). -/
inductive TimeUnit where
  | Second
  | Millisecond
  | Microsecond
  | Nanosecond
deriving DecidableEq, Repr

/-- arrow `IntervalUnit`. -/
inductive IntervalUnit where
  | YearMonth
  | DayTime
  | MonthDayNano
deriving DecidableEq, Repr

/-- arrow `UnionMode`. -/
inductive UnionMode where
  | Sparse
  | Dense
deriving DecidableEq, Repr

/-- arrow `DataType`, restricted to the constructors matched by
`record_batch_builder.rs`.  Nested field lists are abstracted to the data
that the embedded code actually inspects. -/
inductive DataType where
  | Null
  | Boolean
  | UInt8
  | UInt16
  | UInt32
  | UInt64
  | Int8
  | Int16
  | Int32
  | Int64
  | Float16
  | Float32
  | Float64
  | Date32
  | Date64
  | Time32 (unit : TimeUnit)
  | Time64 (unit : TimeUnit)
  | Duration (unit : TimeUnit)
  | Timestamp (unit : TimeUnit) (tz : Option (List Char))
  | Interval (unit : IntervalUnit)
  | Utf8
  | Binary
  | LargeUtf8
  | LargeBinary
  | List (child : DataType)
  | Map (entries : DataType) (sorted : Bool)
  | LargeList (child : DataType)
  | FixedSizeBinary (size : Nat)
  | Dictionary (key : DataType) (value : DataType)
  | FixedSizeList (child : DataType) (size : Nat)
  | Struct (nFields : Nat)
  | Decimal128 (precision scale : Nat)
  | Decimal256 (precision scale : Nat)
  | Union (nFields : Nat) (mode : UnionMode)
deriving DecidableEq, Repr

/-- arrow `Field`: name, data type, nullability. -/
structure Field where
  name : List Char
  data_type : DataType
  nullable : Bool
deriving DecidableEq, Repr

/-- arrow `MutableBuffer`: `cap` records the requested capacity in bytes,
`data` the bytes written so far. -/
structure MutableBuffer where
  cap : Nat
  data : List Byte
deriving DecidableEq, Repr

namespace MutableBuffer

/-- `MutableBuffer::new(capacity)`. -/
def new (capacity : Nat) : MutableBuffer := ⟨capacity, []⟩

/-- `MutableBuffer::with_capacity(capacity)`. -/
def with_capacity (capacity : Nat) : MutableBuffer := ⟨capacity, []⟩

/-- `MutableBuffer::from_len_zeroed(len)`. -/
def from_len_zeroed (len : Nat) : MutableBuffer := ⟨len, List.replicate len 0⟩

/-- `MutableBuffer::len()`. -/
def len (b : MutableBuffer) : Nat := b.data.length

/-- `MutableBuffer::capacity()`: at least the requested capacity and at
least the bytes actually stored. -/
def capacity (b : MutableBuffer) : Nat := max b.cap b.data.length

/-- `MutableBuffer::extend_from_slice` (also `push<T>`, with the value
already serialized to its little-endian bytes, exactly as
`ToByteSlice` does in the source). -/
def extend_from_slice (b : MutableBuffer) (bytes : List Byte) : MutableBuffer :=
  ⟨max b.cap (b.data.length + bytes.length), b.data ++ bytes⟩

end MutableBuffer

namespace bit_util

/-- arrow `bit_util::ceil(value, divisor)`. -/
def ceil (value divisor : Nat) : Nat := (value + divisor - 1) / divisor

/-- arrow `bit_util::set_bit(data, i)`: OR bit `i % 8` into byte `i / 8`.
Out-of-range indices leave the list unchanged (the source only calls this
after resizing the buffer to cover bit `i`). -/
def set_bit (bytes : List Byte) (i : Nat) : List Byte :=
  bytes.set (i / 8) ((bytes.getD (i / 8) 0) ||| (1 <<< (i % 8)))

/-- arrow `bit_util::get_bit(data, i)`. -/
def get_bit (bytes : List Byte) (i : Nat) : Bool :=
  Nat.testBit (bytes.getD (i / 8) 0) (i % 8)

end bit_util

namespace utils

/-- Modelled from the spec: `crate::sorted_merge::utils::resize_for_bits` is
not under `src/` (only its caller `extend_non_null_bit` is).  Per §3 the null
bitmap is "bit-packed, byte-aligned, one bit per logical row", so resizing
for `len` bits grows the buffer to `ceil(len, 8)` bytes, zero-filling the new
bytes; already-large buffers keep their contents. -/
def resize_for_bits (b : MutableBuffer) (len : Nat) : MutableBuffer :=
  let needed := bit_util.ceil len 8
  if b.data.length < needed then
    ⟨max b.cap needed, b.data ++ List.replicate (needed - b.data.length) 0⟩
  else
    b

/-- Per-row byte width of the primary value buffer for fixed-width types,
following the §4.1 layout table (integer widths also match `new_buffers`). -/
def primitive_width : DataType → Nat
  | .UInt8 | .Int8 => 1
  | .UInt16 | .Int16 | .Float16 => 2
  | .UInt32 | .Int32 | .Float32 | .Date32 | .Time32 _ => 4
  | .UInt64 | .Int64 | .Float64 | .Date64 | .Time64 _ | .Duration _ | .Timestamp _ _ => 8
  | .Interval .YearMonth => 4
  | .Interval .DayTime => 8
  | .Interval .MonthDayNano => 16
  | .Decimal128 _ _ => 16
  | .Decimal256 _ _ => 32
  | .FixedSizeBinary size => size
  | _ => 0

/-- Modelled from the spec: `crate::sorted_merge::utils::get_default_value`
is not under `src/`.  §4.1 says `push_null` "writes a type-appropriate
default/zero representation into the value buffer (so fixed-width buffers
stay byte-aligned and random-accessible even for null slots)", i.e. a slice
of `primitive_width` zero bytes. -/
def get_default_value (dt : DataType) : List Byte :=
  List.replicate (primitive_width dt) 0

end utils

/-- Whether `data_type` is one of the eight types accepted by the `match`
inside `MergedArrayData::push_non_null_item`. -/
def DataType.is_supported_int : DataType → Bool
  | .UInt8 | .UInt16 | .UInt32 | .UInt64 | .Int8 | .Int16 | .Int32 | .Int64 => true
  | _ => false

/-- `new_buffers(data_type, capacity)` from `record_batch_builder.rs`
(lines 148–304).  `none` models the `unreachable!` arm for dictionary key
types outside the eight integer types. -/
def new_buffers (data_type : DataType) (capacity : Nat) :
    Option (MutableBuffer × MutableBuffer) :=
  let empty_buffer := MutableBuffer.new 0
  match data_type with
  | .Null => some (empty_buffer, MutableBuffer.new 0)
  | .Boolean =>
      let bytes := bit_util.ceil capacity 8
      some (MutableBuffer.new bytes, empty_buffer)
  | .UInt8 => some (MutableBuffer.new (capacity * 1), empty_buffer)
  | .UInt16 => some (MutableBuffer.new (capacity * 2), empty_buffer)
  | .UInt32 => some (MutableBuffer.new (capacity * 4), empty_buffer)
  | .UInt64 => some (MutableBuffer.new (capacity * 8), empty_buffer)
  | .Int8 => some (MutableBuffer.new (capacity * 1), empty_buffer)
  | .Int16 => some (MutableBuffer.new (capacity * 2), empty_buffer)
  | .Int32 => some (MutableBuffer.new (capacity * 4), empty_buffer)
  | .Int64 => some (MutableBuffer.new (capacity * 8), empty_buffer)
  -- the source allocates Float16 buffers with `mem::size_of::<f32>()`
  | .Float16 => some (MutableBuffer.new (capacity * 4), empty_buffer)
  | .Float32 => some (MutableBuffer.new (capacity * 4), empty_buffer)
  | .Float64 => some (MutableBuffer.new (capacity * 8), empty_buffer)
  | .Date32 | .Time32 _ => some (MutableBuffer.new (capacity * 4), empty_buffer)
  | .Date64 | .Time64 _ | .Duration _ | .Timestamp _ _ =>
      some (MutableBuffer.new (capacity * 8), empty_buffer)
  | .Interval .YearMonth => some (MutableBuffer.new (capacity * 4), empty_buffer)
  | .Interval .DayTime => some (MutableBuffer.new (capacity * 8), empty_buffer)
  | .Interval .MonthDayNano => some (MutableBuffer.new (capacity * 16), empty_buffer)
  | .Utf8 | .Binary =>
      -- offsets buffer, initialized with one `0i32` entry
      let buffer := (MutableBuffer.new ((1 + capacity) * 4)).extend_from_slice
        (List.replicate 4 0)
      some (buffer, MutableBuffer.new (capacity * 1))
  | .LargeUtf8 | .LargeBinary =>
      let buffer := (MutableBuffer.new ((1 + capacity) * 8)).extend_from_slice
        (List.replicate 8 0)
      some (buffer, MutableBuffer.new (capacity * 1))
  | .List _ | .Map _ _ =>
      -- offset buffer always starts with a zero
      let buffer := (MutableBuffer.new ((1 + capacity) * 4)).extend_from_slice
        (List.replicate 4 0)
      some (buffer, empty_buffer)
  | .LargeList _ =>
      let buffer := (MutableBuffer.new ((1 + capacity) * 8)).extend_from_slice
        (List.replicate 8 0)
      some (buffer, empty_buffer)
  | .FixedSizeBinary size => some (MutableBuffer.new (capacity * size), empty_buffer)
  | .Dictionary child_data_type _ =>
      match child_data_type with
      | .UInt8 => some (MutableBuffer.new (capacity * 1), empty_buffer)
      | .UInt16 => some (MutableBuffer.new (capacity * 2), empty_buffer)
      | .UInt32 => some (MutableBuffer.new (capacity * 4), empty_buffer)
      | .UInt64 => some (MutableBuffer.new (capacity * 8), empty_buffer)
      | .Int8 => some (MutableBuffer.new (capacity * 1), empty_buffer)
      | .Int16 => some (MutableBuffer.new (capacity * 2), empty_buffer)
      | .Int32 => some (MutableBuffer.new (capacity * 4), empty_buffer)
      | .Int64 => some (MutableBuffer.new (capacity * 8), empty_buffer)
      | _ => none
  | .FixedSizeList _ _ | .Struct _ => some (empty_buffer, MutableBuffer.new 0)
  | .Decimal128 _ _ | .Decimal256 _ _ =>
      some (MutableBuffer.new (capacity * 1), empty_buffer)
  | .Union _ mode =>
      let type_ids := MutableBuffer.new (capacity * 1)
      match mode with
      | .Sparse => some (type_ids, empty_buffer)
      | .Dense =>
          let offsets := MutableBuffer.new (capacity * 4)
          some (type_ids, offsets)

/-- `MergedArrayData` from `record_batch_builder.rs` (lines 10–24). -/
structure MergedArrayData where
  data_type : DataType
  nullable : Bool
  null_count : Nat
  len : Nat
  null_buffer : MutableBuffer
  buffer1 : MutableBuffer
  buffer2 : MutableBuffer
deriving DecidableEq, Repr

namespace MergedArrayData

/-- `MergedArrayData::with_capacities` (lines 31–50).  `none` models the
`unreachable!` reachable through `new_buffers`. -/
def with_capacities (field : Field) (capacity : Nat) : Option MergedArrayData :=
  match new_buffers field.data_type capacity with
  | none => none
  | some (buffer1, buffer2) =>
      let nullable := if field.nullable then true else false
      let null_buffer :=
        if nullable then
          let null_bytes := bit_util.ceil capacity 8
          MutableBuffer.from_len_zeroed null_bytes
        else
          -- create 0 capacity mutable buffer with the intention that it won't be used
          MutableBuffer.with_capacity 0
      some { data_type := field.data_type
             nullable := nullable
             null_count := 0
             len := 0
             null_buffer := null_buffer
             buffer1 := buffer1
             buffer2 := buffer2 }

/-- `MergedArrayData::new` (lines 27–29). -/
def new (field : Field) (capacity : Nat) : Option MergedArrayData :=
  with_capacities field capacity

/-- `MergedArrayData::push_null` (lines 52–61).  `none` models a failing
`assert!`; the `println!` debug output is dropped. -/
def push_null (d : MergedArrayData) : Option MergedArrayData :=
  if !d.nullable ∧ d.null_buffer.capacity ≠ 0 then none
  else
    some { d with
           len := d.len + 1
           null_count := d.null_count + 1
           buffer1 := d.buffer1.extend_from_slice (utils.get_default_value d.data_type) }

/-- `MergedArrayData::extend_non_null_bit` (lines 114–119). -/
def extend_non_null_bit (d : MergedArrayData) : MergedArrayData :=
  let nb := utils.resize_for_bits d.null_buffer (d.len + 1)
  { d with null_buffer := ⟨nb.cap, bit_util.set_bit nb.data d.len⟩ }

/-- `MergedArrayData::push_non_null_item` (lines 74–92), with the generic
item already serialized to its bytes (`ToByteSlice`).  `none` models the
`panic!("Unsupported DataType")` arm. -/
def push_non_null_item (d : MergedArrayData) (item : List Byte) : Option MergedArrayData :=
  let d := if d.nullable then d.extend_non_null_bit else d
  match d.data_type with
  | .UInt8 | .UInt16 | .UInt32 | .UInt64 | .Int8 | .Int16 | .Int32 | .Int64 =>
      some { d with buffer1 := d.buffer1.extend_from_slice item, len := d.len + 1 }
  | _ => none

end MergedArrayData

/-- An immutable arrow buffer is just its bytes. -/
abbrev Buffer := List Byte

/-- `into_buffers(data_type, buffer1, buffer2)` (lines 306–327). -/
def into_buffers (data_type : DataType) (buffer1 buffer2 : MutableBuffer) : List Buffer :=
  match data_type with
  | .Null | .Struct _ | .FixedSizeList _ _ => []
  | .Utf8 | .Binary | .LargeUtf8 | .LargeBinary => [buffer1.data, buffer2.data]
  | .Union _ mode =>
      match mode with
      | .Sparse => [buffer1.data]
      | .Dense => [buffer1.data, buffer2.data]
  | _ => [buffer1.data]

/-- The `ArrayData` assembled by `freeze` through `ArrayDataBuilder` and
`build_unchecked` (the unchecked build performs no validation, so the
builder fields pass through unchanged). -/
structure ArrayData where
  data_type : DataType
  offset : Nat
  len : Nat
  null_count : Nat
  buffers : List Buffer
  null_bit_buffer : Option (List Byte)
deriving DecidableEq, Repr

/-- `MergedArrayData::freeze` (lines 121–144). -/
def MergedArrayData.freeze (d : MergedArrayData) : ArrayData :=
  { data_type := d.data_type
    offset := 0
    len := d.len
    null_count := d.null_count
    buffers := into_buffers d.data_type d.buffer1 d.buffer2
    null_bit_buffer := if d.null_count > 0 then some d.null_buffer.data else none }

/-- One append call against a `MergedArrayData`. -/
inductive PushOp where
  | pushNull
  | pushItem (bytes : List Byte)
deriving DecidableEq, Repr

/-- Run a sequence of append calls; a panic (`none`) aborts the run. -/
def run_ops (d : MergedArrayData) : List PushOp → Option MergedArrayData
  | [] => some d
  | op :: rest =>
      match (match op with
             | .pushNull => d.push_null
             | .pushItem b => d.push_non_null_item b) with
      | none => none
      | some d' => run_ops d' rest

/-- Number of `push_null` calls in a sequence. -/
def count_null_ops (ops : List PushOp) : Nat :=
  ops.countP fun op => match op with | .pushNull => true | _ => false

/-! ### Helper lemmas about bytes and bits -/

theorem getD_set_self_zero (xs : List Byte) (n : Nat) (v : Byte) (h : n < xs.length) :
    (xs.set n v).getD n 0 = v := by
  rw [List.getD_eq_getElem _ _ (by simpa using h)]
  exact List.getElem_set_self (by simpa using h)

theorem getD_set_ne_zero (xs : List Byte) (n m : Nat) (v : Byte) (h : n ≠ m) :
    (xs.set n v).getD m 0 = xs.getD m 0 := by
  by_cases hm : m < xs.length
  · rw [List.getD_eq_getElem _ _ (by simpa using hm),
      List.getD_eq_getElem _ _ hm]
    exact List.getElem_set_ne h (by simpa using hm)
  · rw [List.getD_eq_default _ _ (by simpa using Nat.le_of_not_lt hm),
      List.getD_eq_default _ _ (Nat.le_of_not_lt hm)]

theorem get_bit_set_bit_self (bytes : List Byte) (i : Nat) (h : i / 8 < bytes.length) :
    bit_util.get_bit (bit_util.set_bit bytes i) i = true := by
  unfold bit_util.get_bit bit_util.set_bit
  rw [getD_set_self_zero _ _ _ h]
  rw [Nat.testBit_or, Nat.shiftLeft_eq, one_mul, Nat.testBit_two_pow_self]
  simp

theorem get_bit_set_bit_mono (bytes : List Byte) (i j : Nat)
    (h : bit_util.get_bit bytes i = true) :
    bit_util.get_bit (bit_util.set_bit bytes j) i = true := by
  unfold bit_util.get_bit bit_util.set_bit
  unfold bit_util.get_bit at h
  by_cases hij : j / 8 = i / 8
  · rw [hij]
    by_cases hlt : i / 8 < bytes.length
    · rw [getD_set_self_zero _ _ _ hlt]
      rw [Nat.testBit_or, h, Bool.true_or]
    · rw [List.set_eq_of_length_le (Nat.le_of_not_lt hlt)]
      exact h
  · rw [getD_set_ne_zero _ _ _ _ hij]
    exact h

theorem get_bit_append_mono (bytes zs : List Byte) (i : Nat)
    (h : bit_util.get_bit bytes i = true) :
    bit_util.get_bit (bytes ++ zs) i = true := by
  unfold bit_util.get_bit at h ⊢
  by_cases hlt : i / 8 < bytes.length
  · rw [List.getD_append _ _ _ _ hlt]
    exact h
  · rw [List.getD_eq_default _ _ (Nat.le_of_not_lt hlt)] at h
    simp at h

theorem resize_for_bits_length (b : MutableBuffer) (n : Nat) :
    bit_util.ceil n 8 ≤ (utils.resize_for_bits b n).data.length := by
  unfold utils.resize_for_bits
  by_cases hlt : b.data.length < bit_util.ceil n 8
  · simp only [hlt, if_true]
    simp [List.length_append, List.length_replicate]
    omega
  · simp only [hlt, if_false]
    omega

theorem resize_for_bits_bit_mono (b : MutableBuffer) (n i : Nat)
    (h : bit_util.get_bit b.data i = true) :
    bit_util.get_bit (utils.resize_for_bits b n).data i = true := by
  unfold utils.resize_for_bits
  by_cases hlt : b.data.length < bit_util.ceil n 8
  · simp only [hlt, if_true]
    exact get_bit_append_mono _ _ _ h
  · simpa only [hlt, if_false] using h

theorem div_lt_ceil_succ (len : Nat) : len / 8 < bit_util.ceil (len + 1) 8 := by
  unfold bit_util.ceil
  omega

/-! ### Helper lemmas about the builder operations -/

namespace MergedArrayData

theorem extend_non_null_bit_fields (d : MergedArrayData) :
    (d.extend_non_null_bit).data_type = d.data_type ∧
    (d.extend_non_null_bit).nullable = d.nullable ∧
    (d.extend_non_null_bit).len = d.len ∧
    (d.extend_non_null_bit).null_count = d.null_count ∧
    (d.extend_non_null_bit).buffer1 = d.buffer1 ∧
    (d.extend_non_null_bit).buffer2 = d.buffer2 :=
  ⟨rfl, rfl, rfl, rfl, rfl, rfl⟩

theorem extend_non_null_bit_sets_bit (d : MergedArrayData) :
    bit_util.get_bit (d.extend_non_null_bit).null_buffer.data d.len = true := by
  unfold extend_non_null_bit
  apply get_bit_set_bit_self
  calc d.len / 8 < bit_util.ceil (d.len + 1) 8 := div_lt_ceil_succ d.len
    _ ≤ _ := resize_for_bits_length _ _

theorem extend_non_null_bit_bit_mono (d : MergedArrayData) (i : Nat)
    (h : bit_util.get_bit d.null_buffer.data i = true) :
    bit_util.get_bit (d.extend_non_null_bit).null_buffer.data i = true := by
  unfold extend_non_null_bit
  exact get_bit_set_bit_mono _ _ _ (resize_for_bits_bit_mono _ _ _ h)

theorem push_null_some (d : MergedArrayData)
    (h : d.nullable = true ∨ d.null_buffer.capacity = 0) :
    d.push_null = some { d with
      len := d.len + 1
      null_count := d.null_count + 1
      buffer1 := d.buffer1.extend_from_slice (utils.get_default_value d.data_type) } := by
  unfold push_null
  rcases h with h | h
  · simp [h]
  · simp [h]

theorem push_non_null_item_int (d : MergedArrayData) (item : List Byte)
    (hty : d.data_type.is_supported_int = true) :
    d.push_non_null_item item =
      some { (if d.nullable then d.extend_non_null_bit else d) with
             buffer1 := (if d.nullable then d.extend_non_null_bit
               else d).buffer1.extend_from_slice item
             len := (if d.nullable then d.extend_non_null_bit else d).len + 1 } := by
  by_cases hn : d.nullable <;>
    cases hdt : d.data_type <;>
      simp_all [push_non_null_item, extend_non_null_bit, DataType.is_supported_int]

theorem with_capacities_spec (field : Field) (capacity : Nat) (d : MergedArrayData)
    (h : with_capacities field capacity = some d) :
    d.len = 0 ∧ d.null_count = 0 ∧ d.data_type = field.data_type ∧
    d.nullable = field.nullable ∧
    (field.nullable = false → d.null_buffer = MutableBuffer.with_capacity 0) ∧
    (field.nullable = true →
      d.null_buffer = MutableBuffer.from_len_zeroed (bit_util.ceil capacity 8)) := by
  unfold with_capacities at h
  cases hnb : new_buffers field.data_type capacity with
  | none => rw [hnb] at h; exact absurd h (by simp)
  | some p =>
      rw [hnb] at h
      cases hn : field.nullable <;>
        simp only [hn, if_true, if_false, Option.some.injEq] at h <;>
          subst h <;> simp

theorem nullable_false_null_buffer_capacity (field : Field) (capacity : Nat)
    (d : MergedArrayData) (h : with_capacities field capacity = some d)
    (hn : field.nullable = false) : d.null_buffer.capacity = 0 := by
  have := (with_capacities_spec field capacity d h).2.2.2.2.1 hn
  rw [this]
  rfl

/-- Main induction: over the eight supported integer types, every sequence
of `push_null` / `push_non_null_item` calls succeeds and tracks `len` and
`null_count` exactly, while leaving the builder's identity fields alone. -/
theorem run_ops_int_spec (ops : List PushOp) :
    ∀ d : MergedArrayData, d.data_type.is_supported_int = true →
    (d.nullable = false → d.null_buffer.capacity = 0) →
    ∃ d', run_ops d ops = some d' ∧
      d'.len = d.len + ops.length ∧
      d'.null_count = d.null_count + count_null_ops ops ∧
      d'.data_type = d.data_type ∧
      d'.nullable = d.nullable ∧
      (d.nullable = false → d'.null_buffer = d.null_buffer) := by
  induction ops with
  | nil =>
      intro d _ _
      exact ⟨d, rfl, by simp, by simp [count_null_ops], rfl, rfl, fun _ => rfl⟩
  | cons op rest ih =>
      intro d hty hcap
      cases op with
      | pushNull =>
          have hsucc := push_null_some d (by
            cases hn : d.nullable
            · exact Or.inr (hcap hn)
            · exact Or.inl rfl)
          obtain ⟨d', hrun, hlen, hnc, hdt, hnul, hnb⟩ := ih
            { d with
              len := d.len + 1
              null_count := d.null_count + 1
              buffer1 := d.buffer1.extend_from_slice (utils.get_default_value d.data_type) }
            (by simpa using hty) (by simpa using hcap)
          refine ⟨d', ?_, ?_, ?_, by simpa using hdt, by simpa using hnul, ?_⟩
          · simp only [run_ops, hsucc, hrun]
          · simp only [hlen]; simp; omega
          · simp only [hnc, count_null_ops, List.countP_cons]
            simp [count_null_ops]; omega
          · intro h0
            simpa using hnb (by simpa using h0)
      | pushItem b =>
          have hsucc := push_non_null_item_int d b hty
          set d1 : MergedArrayData :=
            { (if d.nullable then d.extend_non_null_bit else d) with
              buffer1 := (if d.nullable then d.extend_non_null_bit
                else d).buffer1.extend_from_slice b
              len := (if d.nullable then d.extend_non_null_bit else d).len + 1 } with hd1
          have hfields : d1.data_type = d.data_type ∧ d1.nullable = d.nullable ∧
              d1.len = d.len + 1 ∧ d1.null_count = d.null_count ∧
              (d.nullable = false → d1.null_buffer = d.null_buffer) := by
            cases hn : d.nullable <;>
              simp [hd1, extend_non_null_bit, hn]
          obtain ⟨hf1, hf2, hf3, hf4, hf5⟩ := hfields
          obtain ⟨d', hrun, hlen, hnc, hdt, hnul, hnb⟩ := ih d1
            (by rw [hf1]; exact hty)
            (by
              intro h0
              rw [hf2] at h0
              rw [hf5 h0, hcap h0])
          refine ⟨d', ?_, ?_, ?_, ?_, ?_, ?_⟩
          · simp only [run_ops, hsucc, ← hd1, hrun]
          · rw [hlen, hf3]; simp; omega
          · rw [hnc, hf4]
            simp [count_null_ops, List.countP_cons]
          · rw [hdt, hf1]
          · rw [hnul, hf2]
          · intro h0
            rw [hnb (by rw [hf2]; exact h0), hf5 h0]

theorem push_null_null_buffer (d d1 : MergedArrayData) (hp : d.push_null = some d1) :
    d1.null_buffer = d.null_buffer := by
  unfold push_null at hp
  split at hp
  · exact absurd hp (by simp)
  · cases hp
    rfl

theorem push_non_null_item_null_buffer (d : MergedArrayData) (b : List Byte)
    (d1 : MergedArrayData) (hp : d.push_non_null_item b = some d1) :
    d1.null_buffer = (if d.nullable then d.extend_non_null_bit else d).null_buffer := by
  by_cases hn : d.nullable <;>
    cases hdt : d.data_type <;>
      simp_all [push_non_null_item, extend_non_null_bit] <;>
        (subst hp; rfl)

theorem run_ops_bit_mono (i : Nat) (ops : List PushOp) :
    ∀ d d' : MergedArrayData, run_ops d ops = some d' →
      bit_util.get_bit d.null_buffer.data i = true →
      bit_util.get_bit d'.null_buffer.data i = true := by
  induction ops with
  | nil =>
      intro d d' h hb
      simp only [run_ops, Option.some.injEq] at h
      rw [← h]
      exact hb
  | cons op rest ih =>
      intro d d' h hb
      cases op with
      | pushNull =>
          simp only [run_ops] at h
          cases hp : d.push_null with
          | none => rw [hp] at h; exact absurd h (by simp)
          | some d1 =>
              rw [hp] at h
              refine ih d1 d' h ?_
              rw [push_null_null_buffer d d1 hp]
              exact hb
      | pushItem b =>
          simp only [run_ops] at h
          cases hp : d.push_non_null_item b with
          | none => rw [hp] at h; exact absurd h (by simp)
          | some d1 =>
              rw [hp] at h
              refine ih d1 d' h ?_
              rw [push_non_null_item_null_buffer d b d1 hp]
              cases hn : d.nullable
              · simpa [hn] using hb
              · simp only [hn, if_true]
                exact extend_non_null_bit_bit_mono d i hb

end MergedArrayData

open MergedArrayData

/-- C1, counterexample: on a non-nullable `Int32` column built by
`with_capacities`, `push_null` does NOT fail — the internal
`assert!(null_buffer.capacity() == 0)` passes (the unused null buffer has
zero capacity) — and it appends a row: `len` and `null_count` become 1 and
four default bytes are appended to the value buffer.  This refutes "fails
with an invariant-violation error and leaves the builder's state
unchanged; it never appends a row to a non-nullable column". -/
theorem C1_push_null_non_nullable_succeeds_cex :
    ((MergedArrayData.with_capacities ⟨['a'], .Int32, false⟩ 5).bind
      MergedArrayData.push_null |>.map
      fun d => (d.len, d.null_count, d.buffer1.data.length)) = some (1, 1, 4) := by
  decide

/-- C1 (amended): calling `push_null` on a builder whose field is
non-nullable (so its null buffer was created with zero capacity) succeeds:
the assertion passes, `len` and `null_count` each grow by one, the type's
default value is appended to the value buffer, and the (empty) null buffer
is left untouched.  It does append a row to the non-nullable column. -/
theorem C1_push_null_non_nullable_appends_row (d : MergedArrayData)
    (h1 : d.nullable = false) (h2 : d.null_buffer.capacity = 0) :
    ∃ d', d.push_null = some d' ∧
      d'.len = d.len + 1 ∧
      d'.null_count = d.null_count + 1 ∧
      d'.null_buffer = d.null_buffer ∧
      d'.buffer1.data = d.buffer1.data ++ utils.get_default_value d.data_type := by
  refine ⟨_, push_null_some d (Or.inr h2), rfl, rfl, rfl, rfl⟩

/-- Witness for the amended C1 theorem at a concrete non-nullable builder. -/
theorem C1_push_null_non_nullable_appends_row_witness :
    ∃ d', (⟨.Int32, false, 0, 0, ⟨0, []⟩, ⟨20, []⟩, ⟨0, []⟩⟩ :
        MergedArrayData).push_null = some d' ∧
      d'.len = 0 + 1 ∧ d'.null_count = 0 + 1 ∧
      d'.null_buffer = ⟨0, []⟩ ∧
      d'.buffer1.data = [] ++ utils.get_default_value .Int32 :=
  C1_push_null_non_nullable_appends_row _ (by decide) (by decide)

/-- C2 (confirmed): over the supported data types (the eight fixed-width
integer types accepted by `push_non_null_item`), every sequence of
`push_non_null_item` / `push_null` calls on a freshly constructed
`MergedArrayData` succeeds, and the frozen column's `len` equals the total
number of calls while its `null_count` equals the number of `push_null`
calls. -/
theorem C2_freeze_len_and_null_count (field : Field) (capacity : Nat)
    (ops : List PushOp) (d0 : MergedArrayData)
    (hty : field.data_type.is_supported_int = true)
    (h0 : MergedArrayData.with_capacities field capacity = some d0) :
    ∃ d, run_ops d0 ops = some d ∧
      d.freeze.len = ops.length ∧
      d.freeze.null_count = count_null_ops ops := by
  obtain ⟨hl, hnc, hdt, hnul, _, _⟩ := with_capacities_spec field capacity d0 h0
  obtain ⟨d, hrun, hlen, hcount, _, _, _⟩ := run_ops_int_spec ops d0
    (by rw [hdt]; exact hty)
    (fun h => nullable_false_null_buffer_capacity field capacity d0 h0
      (by rw [← hnul]; exact h))
  refine ⟨d, hrun, ?_, ?_⟩
  · show d.len = ops.length
    rw [hlen, hl, Nat.zero_add]
  · show d.null_count = count_null_ops ops
    rw [hcount, hnc, Nat.zero_add]

/-- Concrete data for the C2 witness: a nullable `Int32` builder of
capacity 2 driven by two value pushes and one null push. -/
def c2_ops : List PushOp :=
  [PushOp.pushItem [7, 0, 0, 0], PushOp.pushNull, PushOp.pushItem [1, 0, 0, 0]]

/-- Witness for C2 at a concrete builder and op sequence. -/
theorem C2_freeze_len_and_null_count_witness :
    ∃ d, run_ops ⟨.Int32, true, 0, 0, ⟨1, [0]⟩, ⟨8, []⟩, ⟨0, []⟩⟩ c2_ops = some d ∧
      d.freeze.len = c2_ops.length ∧
      d.freeze.null_count = count_null_ops c2_ops :=
  C2_freeze_len_and_null_count ⟨['a'], .Int32, true⟩ 2 c2_ops _ (by decide) (by decide)

/-- C3, counterexample: `Boolean` is a fixed-width type, yet
`push_non_null_item` on a `Boolean` column panics
(`Unsupported DataType`) instead of succeeding.  This refutes "for every
field whose data type is a fixed-width numeric or boolean type,
push_value succeeds". -/
theorem C3_push_item_boolean_panics_cex :
    ((MergedArrayData.with_capacities ⟨['b'], .Boolean, true⟩ 4).bind
      fun d => d.push_non_null_item [1]) = none := by
  decide

/-- C3 (amended): `push_non_null_item` succeeds exactly on the eight
fixed-width integer types (`UInt8/16/32/64`, `Int8/16/32/64`); boolean,
float and the other fixed-width types panic.  For the integer types, if
the field is nullable the corresponding null-bitmap bit (index `len`) is
set before writing, the raw value bytes are appended to the primary
buffer, `len` is incremented, and `null_count` is unchanged. -/
theorem C3_push_item_int_appends (d : MergedArrayData) (item : List Byte)
    (hty : d.data_type.is_supported_int = true) :
    ∃ d', d.push_non_null_item item = some d' ∧
      d'.len = d.len + 1 ∧
      d'.null_count = d.null_count ∧
      d'.buffer1.data = d.buffer1.data ++ item ∧
      (d.nullable = true → bit_util.get_bit d'.null_buffer.data d.len = true) ∧
      (d.nullable = false → d'.null_buffer = d.null_buffer) := by
  refine ⟨_, push_non_null_item_int d item hty, ?_, ?_, ?_, ?_, ?_⟩
  · by_cases hn : d.nullable <;> simp [hn, extend_non_null_bit]
  · by_cases hn : d.nullable <;> simp [hn, extend_non_null_bit]
  · by_cases hn : d.nullable <;>
      simp [hn, extend_non_null_bit, MutableBuffer.extend_from_slice]
  · intro hn
    simp only [hn, if_true]
    exact extend_non_null_bit_sets_bit d
  · intro hn
    simp [hn]

/-- Witness for the amended C3 theorem at a concrete nullable builder. -/
theorem C3_push_item_int_appends_witness :
    ∃ d', (⟨.Int32, true, 0, 0, ⟨1, [0]⟩, ⟨8, []⟩, ⟨0, []⟩⟩ :
        MergedArrayData).push_non_null_item [7, 0, 0, 0] = some d' ∧
      d'.len = 0 + 1 ∧ d'.null_count = 0 ∧
      d'.buffer1.data = [] ++ [7, 0, 0, 0] ∧
      (true = true → bit_util.get_bit d'.null_buffer.data 0 = true) ∧
      (true = false → d'.null_buffer = ⟨1, [0]⟩) :=
  C3_push_item_int_appends _ _ (by decide)

/-- Offset-entry width of the variable-length types, for stating C8. -/
def offset_width : DataType → Option Nat
  | .Utf8 | .Binary | .List _ | .Map _ _ => some 4
  | .LargeUtf8 | .LargeBinary | .LargeList _ => some 8
  | _ => none

/-- C8 (confirmed): for every variable-length type (UTF-8/binary with
32-bit or 64-bit offsets, list/map, large-list) a freshly constructed
builder's offsets buffer has capacity `offset-width × (capacity + 1)`
bytes and contains exactly one leading `0` offset entry, i.e. `len + 1`
entries (with `len = 0`) starting with `0`. -/
theorem C8_fresh_offsets_buffer (field : Field) (capacity w : Nat)
    (hw : offset_width field.data_type = some w) :
    ∃ d, MergedArrayData.with_capacities field capacity = some d ∧
      d.len = 0 ∧
      d.buffer1.capacity = w * (capacity + 1) ∧
      d.buffer1.data = List.replicate w 0 ∧
      d.buffer1.data.length = w * (d.len + 1) := by
  obtain ⟨name, dt, nullable⟩ := field
  cases dt <;> simp only [offset_width, Option.some.injEq, reduceCtorEq] at hw <;>
    subst hw <;>
      cases nullable <;>
        exact ⟨_, rfl, rfl, by simp [MutableBuffer.capacity,
            MutableBuffer.extend_from_slice, MutableBuffer.new]; omega,
          rfl, by simp [MutableBuffer.extend_from_slice, MutableBuffer.new]⟩

/-- Witness for C8 at a concrete `Utf8` field of capacity 3. -/
theorem C8_fresh_offsets_buffer_witness :
    offset_width DataType.Utf8 = some 4 ∧
    ∃ d, MergedArrayData.with_capacities ⟨['s'], .Utf8, true⟩ 3 = some d ∧
      d.len = 0 ∧
      d.buffer1.capacity = 4 * (3 + 1) ∧
      d.buffer1.data = List.replicate 4 0 ∧
      d.buffer1.data.length = 4 * (d.len + 1) :=
  ⟨rfl, C8_fresh_offsets_buffer ⟨['s'], .Utf8, true⟩ 3 4 rfl⟩

/-- C10 (confirmed): `freeze` attaches a null bitmap if and only if
`null_count > 0` at freeze time; in particular a nullable column built
entirely with non-null appends freezes with no null bitmap attached, even
though its null buffer was allocated and the bitmap bits were set during
the appends (bit 0 is still set in the builder's null buffer). -/
theorem C10_freeze_null_bitmap (field : Field) (capacity : Nat)
    (items : List (List Byte)) (d0 d : MergedArrayData)
    (hty : field.data_type.is_supported_int = true)
    (hnul : field.nullable = true)
    (h0 : MergedArrayData.with_capacities field capacity = some d0)
    (hrun : run_ops d0 (items.map PushOp.pushItem) = some d)
    (hne : items ≠ []) :
    d.freeze.null_bit_buffer = none ∧
    bit_util.get_bit d.null_buffer.data 0 = true ∧
    ∀ e : MergedArrayData, (e.freeze.null_bit_buffer.isSome ↔ 0 < e.null_count) := by
  obtain ⟨hl, hnc, hdt, hnuld, _, _⟩ := with_capacities_spec field capacity d0 h0
  have hcount : count_null_ops (items.map PushOp.pushItem) = 0 := by
    simp [count_null_ops, List.countP_eq_zero]
  obtain ⟨d'', hrun'', _, hcount'', _, _, _⟩ := run_ops_int_spec
    (items.map PushOp.pushItem) d0 (by rw [hdt]; exact hty)
    (by intro h; rw [hnuld, hnul] at h; exact absurd h (by simp))
  have hdd : d'' = d := by
    rw [hrun''] at hrun
    exact Option.some.inj hrun
  have hzero : d.null_count = 0 := by
    rw [← hdd, hcount'', hnc, hcount]
  refine ⟨?_, ?_, ?_⟩
  · show (if d.null_count > 0 then some d.null_buffer.data else none) = none
    simp [hzero]
  · cases items with
    | nil => exact absurd rfl hne
    | cons x rest =>
        have hp := push_non_null_item_int d0 x (by rw [hdt]; exact hty)
        simp only [List.map_cons, run_ops, hp] at hrun
        refine run_ops_bit_mono 0 (rest.map PushOp.pushItem) _ d hrun ?_
        have hn0 : d0.nullable = true := by rw [hnuld, hnul]
        simp only [hn0, if_true]
        have := extend_non_null_bit_sets_bit d0
        rw [hl] at this
        exact this
  · intro e
    show (if e.null_count > 0 then some e.null_buffer.data else none).isSome ↔
      0 < e.null_count
    by_cases h : e.null_count > 0 <;> simp [h]

/-- Witness for C10: two non-null pushes on a nullable `Int32` builder
reach the state `⟨.Int32, true, 0, 2, ⟨1, [3]⟩, …⟩`, whose frozen column
carries no null bitmap although bitmap bit 0 is set. -/
theorem C10_freeze_null_bitmap_witness :
    (⟨.Int32, true, 0, 2, ⟨1, [3]⟩, ⟨8, [7, 0, 0, 0, 9, 0, 0, 0]⟩, ⟨0, []⟩⟩ :
        MergedArrayData).freeze.null_bit_buffer = none ∧
    bit_util.get_bit (⟨.Int32, true, 0, 2, ⟨1, [3]⟩,
        ⟨8, [7, 0, 0, 0, 9, 0, 0, 0]⟩, ⟨0, []⟩⟩ :
        MergedArrayData).null_buffer.data 0 = true ∧
    ∀ e : MergedArrayData, (e.freeze.null_bit_buffer.isSome ↔ 0 < e.null_count) :=
  C10_freeze_null_bitmap ⟨['a'], .Int32, true⟩ 2 [[7, 0, 0, 0], [9, 0, 0, 0]]
    ⟨.Int32, true, 0, 0, ⟨1, [0]⟩, ⟨8, []⟩, ⟨0, []⟩⟩
    ⟨.Int32, true, 0, 2, ⟨1, [3]⟩, ⟨8, [7, 0, 0, 0, 9, 0, 0, 0]⟩, ⟨0, []⟩⟩
    (by decide) (by decide) (by decide) (by decide) (by decide)

/-! ### `lakesoul_writer.rs`: shared upload buffer, multi-part writer, sort pipeline

The async machinery (tokio tasks, channels, the parquet `ArrowWriter` and
the object-store `AsyncWrite`) is embedded as explicit state passing: each
delegated collaborator's outcome is an explicit argument (`enc` for the
parquet encoder's output bytes, `write_ok`/`shutdown_ok` for the network
writer, `join` for the awaited background task), and the in-source control
flow around those outcomes is translated faithfully. -/

/-- Error kinds surfaced by the writer code: `ResourceBusy` from
`InMemBuf`'s `Write` impl, `DataFusionError::Internal`, delegated encoder
(`EncodingError`) and object-store (`StorageIOError`) failures, and
`DataFusionError::External` (e.g. a `JoinError`). -/
inductive WriterError where
  | resourceBusy
  | internal (msg : List Char)
  | encoding
  | storageFault
  | external
deriving DecidableEq, Repr

/-- `InMemBuf` (lakesoul_writer.rs line 88): a `VecDeque<u8>` behind an
`Arc<AtomicRefCell<_>>`.  `borrowed` records an outstanding mutable
borrow of the cell. -/
structure InMemBuf where
  borrowed : Bool
  data : List Byte
deriving DecidableEq, Repr

namespace InMemBuf

/-- `AtomicRefCell::try_borrow_mut`: atomically fails iff a mutable borrow
is already outstanding; on success the borrow is held. -/
def try_borrow_mut (s : InMemBuf) : Option InMemBuf :=
  if s.borrowed then none else some { s with borrowed := true }

/-- `impl Write for InMemBuf`, `write` (lines 92–99): try-borrow, extend
the deque with all input bytes, release the borrow, return the byte count;
fail fast with `ResourceBusy` (leaving the queue untouched) iff the borrow
is held.  `write_all` (lines 107–114) is identical up to the return value. -/
def write (s : InMemBuf) (buf : List Byte) : Except WriterError Nat × InMemBuf :=
  match s.try_borrow_mut with
  | none => (.error .resourceBusy, s)
  | some s1 => (.ok buf.length, ⟨false, s1.data ++ buf⟩)

/-- Two overlapping `write` calls against the shared buffer: writer A
acquires the borrow; while A holds it, writer B's `write` runs its
`try_borrow_mut`; then A extends the deque and releases.  The borrow
acquisition itself is atomic, so this is the shape of every overlap. -/
def overlapped_writes (s : InMemBuf) (bufA bufB : List Byte) :
    (Except WriterError Nat × Except WriterError Nat) × InMemBuf :=
  match s.try_borrow_mut with
  | none => ((.error .resourceBusy, .error .resourceBusy), s)
  | some sA =>
      let rB : Except WriterError Nat :=
        match sA.try_borrow_mut with
        | none => .error .resourceBusy
        | some sB => .ok bufB.length
      ((.ok bufA.length, rB), ⟨false, sA.data ++ bufA⟩)

end InMemBuf

/-- `MultiPartAsyncWriter` state: the shared buffer, the bytes already
handed to the object-store `AsyncWrite` (uploaded parts), and whether the
multi-part upload has been committed by `shutdown`. -/
structure MultiPartAsyncWriter where
  in_mem_buf : InMemBuf
  parts : List Byte
  shutdown : Bool
deriving DecidableEq, Repr

/-- Observable events of `MultiPartAsyncWriter::flush_and_close`, in
execution order. -/
inductive CloseEvent where
  | encoderClosed
  | partWritten (bytes : List Byte)
  | shutdownDone
deriving DecidableEq, Repr

namespace MultiPartAsyncWriter

/-- `MultiPartAsyncWriter::try_new` (lines 176–229): the only in-source
failure is the file-count check; the delegated steps (session context,
object-store lookup, schema JSON decode, `ArrowWriter` construction) are
external collaborators and assumed to succeed, yielding a fresh writer
with an empty 16 MiB buffer and no uploaded parts. -/
def try_new (config_files_len : Nat) : Except WriterError MultiPartAsyncWriter :=
  if config_files_len ≠ 1 then
    .error (.internal "wrong number of file names provided for writer".toList)
  else
    .ok { in_mem_buf := ⟨false, []⟩, parts := [], shutdown := false }

/-- `MultiPartAsyncWriter::write_batch` (lines 231–247): encode the batch
(`arrow_writer.write`, delegated — `enc` is its outcome, with the emitted
bytes entering the shared buffer through `InMemBuf`'s `Write` impl), then
`try_borrow_mut` the buffer and, if it is non-empty, drain it to the
network writer (`write_part`, whose delegated outcome is `write_ok`). -/
def write_record_batch (w : MultiPartAsyncWriter)
    (enc : Except WriterError (List Byte)) (write_ok : Bool) :
    Except WriterError Unit × MultiPartAsyncWriter :=
  match enc with
  | .error e => (.error e, w)
  | .ok bytes =>
      match w.in_mem_buf.write bytes with
      | (.error e, _) => (.error e, w)
      | (.ok _, buf1) =>
          match buf1.try_borrow_mut with
          | none => (.error (.internal "BorrowMutError".toList), w)
          | some buf2 =>
              if buf2.data ≠ [] then
                if write_ok then
                  (.ok (), { in_mem_buf := ⟨false, []⟩
                             parts := w.parts ++ buf2.data
                             shutdown := w.shutdown })
                else (.error .storageFault, { w with in_mem_buf := ⟨false, buf2.data⟩ })
              else (.ok (), { w with in_mem_buf := ⟨false, buf2.data⟩ })

/-- `MultiPartAsyncWriter::flush_and_close` (lines 264–281): close the
arrow writer (`enc` is the delegated close outcome; on success its
buffered-but-unflushed bytes go through `InMemBuf`'s `Write` impl into the
shared buffer), `try_borrow_mut` the buffer, drain it to the network
writer only if non-empty (`write_ok`), then commit the multi-part upload
by shutting the network writer down (`shutdown_ok`).  Returns the final
writer state together with the ordered trace of the performed steps. -/
def flush_and_close (w : MultiPartAsyncWriter)
    (enc : Except WriterError (List Byte)) (write_ok shutdown_ok : Bool) :
    Except WriterError (MultiPartAsyncWriter × List CloseEvent) :=
  match enc with
  | .error e => .error e
  | .ok bytes =>
      match w.in_mem_buf.write bytes with
      | (.error e, _) => .error e
      | (.ok _, buf1) =>
          match buf1.try_borrow_mut with
          | none => .error (.internal "BorrowMutError".toList)
          | some buf2 =>
              if buf2.data ≠ [] then
                if write_ok then
                  if shutdown_ok then
                    .ok ({ in_mem_buf := ⟨false, []⟩
                           parts := w.parts ++ buf2.data
                           shutdown := true },
                      [.encoderClosed, .partWritten buf2.data, .shutdownDone])
                  else .error .storageFault
                else .error .storageFault
              else
                if shutdown_ok then
                  .ok ({ in_mem_buf := ⟨false, []⟩
                         parts := w.parts
                         shutdown := true },
                    [.encoderClosed, .shutdownDone])
                else .error .storageFault

end MultiPartAsyncWriter

/-- `SortAsyncWriter` state: whether the channel into the sort stage is
still open (the `sorter_sender` has not been dropped). -/
structure SortAsyncWriter where
  queue_open : Bool
deriving DecidableEq, Repr

/-- Observable events of `SortAsyncWriter::flush_and_close`, in order. -/
inductive SortCloseEvent where
  | queueClosed
  | taskAwaited
deriving DecidableEq, Repr

namespace SortAsyncWriter

/-- `SortAsyncWriter::try_new` (lines 284–323): sets up the bounded
channel (capacity 2), the `SortExec` over the primary-key sort
expressions, and spawns the background task that writes each sorted batch
to the inner `MultiPartAsyncWriter` and finally flush-and-closes it.  The
delegated constructions are external; the resulting handle has an open
queue. -/
def try_new : SortAsyncWriter := { queue_open := true }

/-- `SortAsyncWriter::write_record_batch` (lines 328–333): send the batch
into the channel; the result depends only on the channel (it fails only
if the receiving side is gone), never on the background task's status. -/
def write_record_batch (s : SortAsyncWriter) (batch : List Byte) :
    Except WriterError Unit :=
  if s.queue_open then .ok () else .error .external

/-- `SortAsyncWriter::flush_and_close` (lines 335–342): drop the sender —
closing the queue and signalling end-of-input to the sort stage — then
await the background task (`join` is the awaited outcome: `.error` a join
panic, mapped to an external error, `.ok r` the task's own result `r`)
and propagate the task's result. -/
def flush_and_close (s : SortAsyncWriter)
    (join : Except WriterError (Except WriterError Unit)) :
    Except WriterError Unit × SortAsyncWriter × List SortCloseEvent :=
  let s1 : SortAsyncWriter := { queue_open := false }
  match join with
  | .error _ => (.error .external, s1, [.queueClosed, .taskAwaited])
  | .ok r => (r, s1, [.queueClosed, .taskAwaited])

end SortAsyncWriter

/-- The `Box<dyn AsyncWriter>` held by the synchronous facade. -/
inductive WriterImpl where
  | multiPart (w : MultiPartAsyncWriter)
  | sortPipeline (w : SortAsyncWriter)
deriving DecidableEq, Repr

/-- Whether the chosen writer is the sort-then-write pipeline. -/
def WriterImpl.is_sort_pipeline : WriterImpl → Bool
  | .sortPipeline _ => true
  | .multiPart _ => false

/-- The configuration fields consulted by
`SyncSendableMutableLakeSoulWriter::new`. -/
structure LakeSoulIOConfig where
  files : List (List Char)
  primary_keys : List (List Char)
deriving DecidableEq, Repr

/-- `SyncSendableMutableLakeSoulWriter` (lines 344–348); the runtime and
schema handles are external. -/
structure SyncSendableMutableLakeSoulWriter where
  inner : WriterImpl
deriving DecidableEq, Repr

namespace SyncSendableMutableLakeSoulWriter

/-- `SyncSendableMutableLakeSoulWriter::new` (lines 351–372): construct
the `MultiPartAsyncWriter`, then wrap it in a `SortAsyncWriter` iff the
configuration declares a non-empty primary-key list. -/
def new (config : LakeSoulIOConfig) :
    Except WriterError SyncSendableMutableLakeSoulWriter :=
  match MultiPartAsyncWriter.try_new config.files.length with
  | .error e => .error e
  | .ok writer =>
      if !config.primary_keys.isEmpty then
        .ok { inner := .sortPipeline SortAsyncWriter.try_new }
      else
        .ok { inner := .multiPart writer }

/-- `SyncSendableMutableLakeSoulWriter::write_batch` (lines 378–385):
lock the inner writer and forward the batch to whichever writer was
chosen at construction; the choice itself is never reassigned. -/
def write_batch (w : SyncSendableMutableLakeSoulWriter) (batch : List Byte)
    (enc : Except WriterError (List Byte)) (write_ok : Bool) :
    Except WriterError Unit × SyncSendableMutableLakeSoulWriter :=
  match w.inner with
  | .multiPart mp =>
      let r := mp.write_record_batch enc write_ok
      (r.1, { inner := .multiPart r.2 })
  | .sortPipeline sp =>
      (sp.write_record_batch batch, { inner := .sortPipeline sp })

end SyncSendableMutableLakeSoulWriter

/-- C4 (confirmed): when the synchronous writer is constructed (with the
mandatory single-file configuration), the sort-then-write pipeline is
selected if and only if the configuration declares a non-empty
primary-key list, otherwise the plain multi-part writer is used; and
`write_batch` never changes which of the two was chosen. -/
theorem C4_writer_selection (config : LakeSoulIOConfig)
    (h : config.files.length = 1) :
    ∃ w, SyncSendableMutableLakeSoulWriter.new config = .ok w ∧
      (w.inner.is_sort_pipeline = true ↔ config.primary_keys ≠ []) ∧
      ∀ batch enc write_ok,
        ((w.write_batch batch enc write_ok).2).inner.is_sort_pipeline =
          w.inner.is_sort_pipeline := by
  by_cases hp : config.primary_keys.isEmpty
  · refine ⟨{ inner := .multiPart ⟨⟨false, []⟩, [], false⟩ }, ?_, ?_, ?_⟩
    · simp [SyncSendableMutableLakeSoulWriter.new, MultiPartAsyncWriter.try_new, h, hp]
    · simp [WriterImpl.is_sort_pipeline, List.isEmpty_iff.mp hp]
    · intro batch enc write_ok
      simp [SyncSendableMutableLakeSoulWriter.write_batch, WriterImpl.is_sort_pipeline]
  · refine ⟨{ inner := .sortPipeline SortAsyncWriter.try_new }, ?_, ?_, ?_⟩
    · simp [SyncSendableMutableLakeSoulWriter.new, MultiPartAsyncWriter.try_new, h, hp]
    · have hne : config.primary_keys ≠ [] := by
        simpa [List.isEmpty_iff] using hp
      simp [WriterImpl.is_sort_pipeline, hne]
    · intro batch enc write_ok
      simp [SyncSendableMutableLakeSoulWriter.write_batch, WriterImpl.is_sort_pipeline]

/-- Witness for C4 at a single-file configuration with one primary key. -/
theorem C4_writer_selection_witness :
    ∃ w, SyncSendableMutableLakeSoulWriter.new ⟨[['f']], [['k']]⟩ = .ok w ∧
      (w.inner.is_sort_pipeline = true ↔ ([['k']] : List (List Char)) ≠ []) ∧
      ∀ batch enc write_ok,
        ((w.write_batch batch enc write_ok).2).inner.is_sort_pipeline =
          w.inner.is_sort_pipeline :=
  C4_writer_selection ⟨[['f']], [['k']]⟩ (by decide)

/-- C5 (confirmed): when two attempts to mutably access the shared
pending-upload buffer overlap, exactly one succeeds (appending its bytes)
and the other fails immediately with `ResourceBusy`; a non-contended
`write` always succeeds appending all of its input (the call is total —
it never blocks), and a `write` that finds the borrow held returns the
busy error with the queue untouched, so no data is ever lost silently. -/
theorem C5_overlapped_buffer_writes (s : InMemBuf) (bufA bufB : List Byte)
    (h : s.borrowed = false) :
    InMemBuf.overlapped_writes s bufA bufB =
      ((.ok bufA.length, .error .resourceBusy), ⟨false, s.data ++ bufA⟩) ∧
    s.write bufA = (.ok bufA.length, ⟨false, s.data ++ bufA⟩) ∧
    ∀ t : InMemBuf, t.borrowed = true → t.write bufB = (.error .resourceBusy, t) := by
  refine ⟨?_, ?_, ?_⟩
  · simp [InMemBuf.overlapped_writes, InMemBuf.try_borrow_mut, h]
  · simp [InMemBuf.write, InMemBuf.try_borrow_mut, h]
  · intro t ht
    simp [InMemBuf.write, InMemBuf.try_borrow_mut, ht]

/-- Witness for C5 at a concrete buffer holding one byte. -/
theorem C5_overlapped_buffer_writes_witness :
    InMemBuf.overlapped_writes ⟨false, [1]⟩ [2] [3] =
      ((.ok ([2] : List Byte).length, .error .resourceBusy),
        ⟨false, ([1] : List Byte) ++ [2]⟩) ∧
    InMemBuf.write ⟨false, [1]⟩ [2] =
      (.ok ([2] : List Byte).length, ⟨false, ([1] : List Byte) ++ [2]⟩) ∧
    ∀ t : InMemBuf, t.borrowed = true →
      t.write [3] = (.error .resourceBusy, t) :=
  C5_overlapped_buffer_writes ⟨false, [1]⟩ [2] [3] (by decide)

/-- C6 (confirmed): `flush_and_close` on the plain uploading writer
performs, in order: encoder close (flushing its pending bytes into the
shared buffer), a drain of the buffer to the network writer executed only
if the buffer is non-empty, then the multi-part commit via shutdown — as
recorded by the returned event trace — and it returns success exactly
when the encoder close, the (required) drain, and the shutdown all
succeed. -/
theorem C6_flush_and_close_order (w : MultiPartAsyncWriter)
    (pending : List Byte) (write_ok shutdown_ok : Bool)
    (hb : w.in_mem_buf.borrowed = false) :
    (((w.in_mem_buf.data ++ pending ≠ [] → write_ok = true) ∧ shutdown_ok = true) →
      w.flush_and_close (.ok pending) write_ok shutdown_ok =
        .ok ({ in_mem_buf := ⟨false, []⟩
               parts := w.parts ++ (w.in_mem_buf.data ++ pending)
               shutdown := true },
          [CloseEvent.encoderClosed] ++
            (if w.in_mem_buf.data ++ pending ≠ []
              then [CloseEvent.partWritten (w.in_mem_buf.data ++ pending)] else []) ++
            [CloseEvent.shutdownDone])) ∧
    (∀ res, w.flush_and_close (.ok pending) write_ok shutdown_ok = .ok res →
      ((w.in_mem_buf.data ++ pending ≠ [] → write_ok = true) ∧ shutdown_ok = true)) ∧
    (∀ e, w.flush_and_close (.error e) write_ok shutdown_ok = .error e) := by
  unfold MultiPartAsyncWriter.flush_and_close
  simp only [InMemBuf.write, InMemBuf.try_borrow_mut, hb, if_false, Bool.false_eq_true]
  by_cases hd : w.in_mem_buf.data ++ pending = [] <;>
    cases write_ok <;> cases shutdown_ok <;>
      simp_all

/-- Witness for C6: buffer `[5]`, encoder flush `[6]`, healthy network. -/
theorem C6_flush_and_close_order_witness :
    ((((⟨⟨false, [5]⟩, [], false⟩ : MultiPartAsyncWriter).in_mem_buf.data ++ [6] ≠ [] →
        true = true) ∧ true = true) →
      (⟨⟨false, [5]⟩, [], false⟩ : MultiPartAsyncWriter).flush_and_close
          (.ok [6]) true true =
        .ok ({ in_mem_buf := ⟨false, []⟩
               parts := ([] : List Byte) ++
                 ((⟨⟨false, [5]⟩, [], false⟩ :
                   MultiPartAsyncWriter).in_mem_buf.data ++ [6])
               shutdown := true },
          [CloseEvent.encoderClosed] ++
            (if (⟨⟨false, [5]⟩, [], false⟩ :
                  MultiPartAsyncWriter).in_mem_buf.data ++ [6] ≠ []
              then [CloseEvent.partWritten
                ((⟨⟨false, [5]⟩, [], false⟩ :
                  MultiPartAsyncWriter).in_mem_buf.data ++ [6])] else []) ++
            [CloseEvent.shutdownDone])) ∧
    (∀ res, (⟨⟨false, [5]⟩, [], false⟩ : MultiPartAsyncWriter).flush_and_close
        (.ok [6]) true true = .ok res →
      (((⟨⟨false, [5]⟩, [], false⟩ :
          MultiPartAsyncWriter).in_mem_buf.data ++ [6] ≠ [] → true = true) ∧
        true = true)) ∧
    (∀ e, (⟨⟨false, [5]⟩, [], false⟩ : MultiPartAsyncWriter).flush_and_close
        (.error e) true true = .error e) :=
  C6_flush_and_close_order ⟨⟨false, [5]⟩, [], false⟩ [6] true true (by decide)

/-- C7 (confirmed): `flush_and_close` on the sorting pipeline closes the
input queue first (signalling end of input to the sort stage), then
awaits the background sort-and-write task, and returns exactly that
task's result — so any error produced inside the task (including the
inner writer's own flush/close failure) is surfaced to the caller at
close time. -/
theorem C7_sort_flush_propagates_task_result (s : SortAsyncWriter)
    (r : Except WriterError Unit) :
    (s.flush_and_close (.ok r)).1 = r ∧
    (s.flush_and_close (.ok r)).2.1.queue_open = false ∧
    (s.flush_and_close (.ok r)).2.2 =
      [SortCloseEvent.queueClosed, SortCloseEvent.taskAwaited] := by
  cases r <;> simp [SortAsyncWriter.flush_and_close]

/-! ### `filter/parser.rs` -/

namespace Filter

/-- datafusion `Expr`, restricted to the shapes `Parser` produces.  Float
literals keep their raw token: the `f32` decoding is delegated to the
standard library, outside this embedding. -/
inductive Expr where
  | column (name : List Char)
  | litUtf8 (value : List Char)
  | litFloat32 (raw : List Char)
  | isNull (e : Expr)
  | isNotNull (e : Expr)
  | not (e : Expr)
  | eq (l r : Expr)
  | noteq (l r : Expr)
  | or (l r : Expr)
  | and (l r : Expr)
  | gt (l r : Expr)
  | gteq (l r : Expr)
  | lt (l r : Expr)
  | lteq (l r : Expr)
  | wildcard
deriving DecidableEq, Repr

/-- The `for (i, ch) in filter.chars().enumerate()` loop of
`Parser::parse_filter_str` (lines 89–103): track the parenthesis depth
`k` and record in `left_offset` the index of the last top-level comma. -/
def scan_commas : List Char → Int → Nat → Nat → Int × Nat
  | [], k, left_offset, _ => (k, left_offset)
  | c :: cs, k, left_offset, i =>
      if c = '(' then scan_commas cs (k + 1) left_offset (i + 1)
      else if c = ')' then scan_commas cs (k - 1) left_offset (i + 1)
      else if c = ',' then
        scan_commas cs k (if k = 0 then i else left_offset) (i + 1)
      else scan_commas cs k left_offset (i + 1)

/-- `Parser::parse_filter_str` (lines 82–113): split at the first `(`
(panic if absent), require a trailing `)`, strip both, find the last
top-level comma, require balanced parentheses, split there, and — unless
the operator is `not` — skip two characters (the comma and the expected
blank) at the start of the right part (`&right[2..]`, which panics when
fewer than two characters remain).  `none` models each panic. -/
def parse_filter_str (filter : List Char) : Option (List Char × List Char × List Char) :=
  match filter.findIdx? (· = '(') with
  | none => none
  | some op_offset =>
      let op := filter.take op_offset
      let rest := filter.drop op_offset
      if rest.getLast? = some ')' then
        let inner := (rest.drop 1).dropLast
        match scan_commas inner 0 0 0 with
        | (k, left_offset) =>
            if k ≠ 0 then none
            else
              let left := inner.take left_offset
              let right := inner.drop left_offset
              if op = "not".toList then some (op, left, right)
              else if 2 ≤ right.length then some (op, left, right.drop 2)
              else none
      else none

/-- `Parser::parse_literal` (lines 115–122): look the column up in the
type map (`unwrap` panics when absent) and build a `Float32` literal for
`"float"`, a `Utf8` literal otherwise. -/
def parse_literal (column value : List Char)
    (schema : List (List Char × List Char)) : Option Expr :=
  match schema.lookup column with
  | none => none
  | some datatype =>
      if datatype = "float".toList then some (.litFloat32 value)
      else some (.litUtf8 value)

theorem parse_filter_str_length (filter op left right : List Char)
    (h : parse_filter_str filter = some (op, left, right)) :
    left.length < filter.length ∧ right.length < filter.length := by
  unfold parse_filter_str at h
  cases hf : filter.findIdx? (· = '(') with
  | none => rw [hf] at h; exact absurd h (by simp)
  | some op_offset =>
      rw [hf] at h
      dsimp only at h
      set rest := filter.drop op_offset with hrest
      set inner := (rest.drop 1).dropLast with hinner
      by_cases hl : rest.getLast? = some ')'
      case neg => rw [if_neg hl] at h; exact absurd h (by simp)
      case pos =>
        rw [if_pos hl] at h
        have hr_ne : rest ≠ [] := by
          intro h0
          rw [h0] at hl
          simp at hl
        have hr_pos : 0 < rest.length := List.length_pos.mpr hr_ne
        have h2 : rest.length ≤ filter.length := by
          rw [hrest, List.length_drop]
          omega
        have h1 : inner.length + 2 ≤ rest.length + 1 := by
          rw [hinner, List.length_dropLast, List.length_drop]
          omega
        rcases hkl : scan_commas inner 0 0 0 with ⟨k, left_offset⟩
        rw [hkl] at h
        by_cases hk : k ≠ 0
        · rw [if_pos hk] at h; exact absurd h (by simp)
        · rw [if_neg hk] at h
          by_cases hnot : filter.take op_offset = "not".toList
          · rw [if_pos hnot] at h
            simp only [Option.some.injEq, Prod.mk.injEq] at h
            obtain ⟨-, hle, hri⟩ := h
            have hL : left.length ≤ inner.length := by
              rw [← hle, List.length_take]
              exact Nat.min_le_right _ _
            have hR : right.length ≤ inner.length := by
              rw [← hri, List.length_drop]
              omega
            omega
          · rw [if_neg hnot] at h
            by_cases hlen : 2 ≤ (inner.drop left_offset).length
            · rw [if_pos hlen] at h
              simp only [Option.some.injEq, Prod.mk.injEq] at h
              obtain ⟨-, hle, hri⟩ := h
              have hL : left.length ≤ inner.length := by
                rw [← hle, List.length_take]
                exact Nat.min_le_right _ _
              have hR : right.length ≤ inner.length := by
                rw [← hri, List.length_drop, List.length_drop]
                omega
              omega
            · rw [if_neg hlen] at h; exact absurd h (by simp)

/-- `Parser::parse` (lines 11–80): split the filter string, special-case a
right-hand side equal to the literal `null` (compiling `eq`/`noteq` to
is-null/is-not-null on the named column), otherwise dispatch on the
operator, recursing for `not`/`or`/`and` and building comparisons against
the literal parsed by `parse_literal`.  Unknown operators yield
`Expr::Wildcard`; `none` models the panics of the helpers. -/
def parse (filter : List Char) (schema : List (List Char × List Char)) : Option Expr :=
  match h : parse_filter_str filter with
  | none => none
  | some (op, left, right) =>
      if right = "null".toList then
        if op = "eq".toList then some (.isNull (.column left))
        else if op = "noteq".toList then some (.isNotNull (.column left))
        else some .wildcard
      else
        if op = "not".toList then
          match parse right schema with
          | none => none
          | some inner => some (.not inner)
        else if op = "eq".toList then
          match parse_literal left right schema with
          | none => none
          | some value => some (.eq (.column left) value)
        else if op = "noteq".toList then
          match parse_literal left right schema with
          | none => none
          | some value => some (.noteq (.column left) value)
        else if op = "or".toList then
          match parse left schema, parse right schema with
          | some l, some r => some (.or l r)
          | _, _ => none
        else if op = "and".toList then
          match parse left schema, parse right schema with
          | some l, some r => some (.and l r)
          | _, _ => none
        else if op = "gt".toList then
          match parse_literal left right schema with
          | none => none
          | some value => some (.gt (.column left) value)
        else if op = "gteq".toList then
          match parse_literal left right schema with
          | none => none
          | some value => some (.gteq (.column left) value)
        else if op = "lt".toList then
          match parse_literal left right schema with
          | none => none
          | some value => some (.lt (.column left) value)
        else if op = "lteq".toList then
          match parse_literal left right schema with
          | none => none
          | some value => some (.lteq (.column left) value)
        else some .wildcard
termination_by filter.length
decreasing_by
  all_goals first
    | exact (parse_filter_str_length _ _ _ _ h).1
    | exact (parse_filter_str_length _ _ _ _ h).2

theorem findIdx_open_paren (pre rest : List Char) (h : ∀ c ∈ pre, c ≠ '(') :
    (pre ++ '(' :: rest).findIdx? (· = '(') = some pre.length := by
  rw [List.findIdx?_append]
  have h1 : pre.findIdx? (· = '(') = none := by
    rw [List.findIdx?_eq_none_iff]
    intro c hc
    simpa using h c hc
  rw [h1]
  simp

theorem scan_commas_no_special (cs : List Char)
    (h : ∀ c ∈ cs, c ≠ '(' ∧ c ≠ ')' ∧ c ≠ ',') :
    ∀ (tail : List Char) (k : Int) (lo i : Nat),
      scan_commas (cs ++ tail) k lo i = scan_commas tail k lo (i + cs.length) := by
  induction cs with
  | nil => intro tail k lo i; simp
  | cons c cs ih =>
      intro tail k lo i
      obtain ⟨h1, h2, h3⟩ := h c (by simp)
      rw [List.cons_append]
      show scan_commas (c :: (cs ++ tail)) k lo i = _
      rw [scan_commas, if_neg h1, if_neg h2, if_neg h3,
        ih (fun c hc => h c (by simp [hc])) tail k lo (i + 1)]
      congr 1
      simp
      omega

/-- `parse_filter_str` on a well-formed `op(col, null)` string — with the
arguments separated by a comma and a single blank, as in the parser's own
tests — yields the operator, the column name, and the token `null`. -/
theorem parse_filter_str_op_col_null (opStr colName : List Char)
    (hop : ∀ c ∈ opStr, c ≠ '(')
    (hcol : ∀ c ∈ colName, c ≠ '(' ∧ c ≠ ')' ∧ c ≠ ',')
    (hnot : opStr ≠ "not".toList) :
    parse_filter_str (opStr ++ '(' :: (colName ++ [',', ' ', 'n', 'u', 'l', 'l', ')'])) =
      some (opStr, colName, ['n', 'u', 'l', 'l']) := by
  unfold parse_filter_str
  rw [findIdx_open_paren _ _ hop]
  dsimp only
  rw [List.take_left, List.drop_left]
  have hlast : ('(' :: (colName ++ [',', ' ', 'n', 'u', 'l', 'l', ')'])).getLast? =
      some ')' := by
    rw [show '(' :: (colName ++ [',', ' ', 'n', 'u', 'l', 'l', ')']) =
      ('(' :: colName ++ [',', ' ', 'n', 'u', 'l', 'l']) ++ [')'] by simp,
      List.getLast?_concat]
  rw [if_pos hlast]
  have hinner : (('(' :: (colName ++ [',', ' ', 'n', 'u', 'l', 'l', ')'])).drop 1).dropLast =
      colName ++ [',', ' ', 'n', 'u', 'l', 'l'] := by
    rw [List.drop_succ_cons, List.drop_zero,
      show colName ++ [',', ' ', 'n', 'u', 'l', 'l', ')'] =
        (colName ++ [',', ' ', 'n', 'u', 'l', 'l']) ++ [')'] by simp,
      List.dropLast_concat]
  rw [hinner]
  rw [scan_commas_no_special colName hcol [',', ' ', 'n', 'u', 'l', 'l'] 0 0 0]
  have hscan : scan_commas [',', ' ', 'n', 'u', 'l', 'l'] 0 0 (0 + colName.length) =
      (0, colName.length) := by
    simp [scan_commas]
  rw [hscan]
  rw [if_neg (by simp)]
  rw [List.take_left, List.drop_left]
  rw [if_neg hnot]
  rw [if_pos (by simp : 2 ≤ ([',', ' ', 'n', 'u', 'l', 'l'] : List Char).length)]
  rfl

/-- C9, counterexample: `eq(a,null)` — operator `eq`, right-hand argument
the literal `null`, but without a blank after the comma — is NOT compiled
to an is-null test: the splitter unconditionally skips two characters
after the top-level comma (`&right[2..]`), so the right-hand token
becomes `ull` and the parser emits an ordinary equality against the
string literal `"ull"`. -/
theorem C9_eq_null_no_space_cex :
    parse ['e', 'q', '(', 'a', ',', 'n', 'u', 'l', 'l', ')']
        [(['a'], "string".toList)] =
      some (.eq (.column ['a']) (.litUtf8 ['u', 'l', 'l'])) := by
  rw [parse]
  split
  next h => exact absurd h (by decide)
  next op left right h =>
    rw [show parse_filter_str ['e', 'q', '(', 'a', ',', 'n', 'u', 'l', 'l', ')'] =
      some (['e', 'q'], ['a'], ['u', 'l', 'l']) from by decide] at h
    simp only [Option.some.injEq, Prod.mk.injEq] at h
    obtain ⟨h1, h2, h3⟩ := h
    subst h1
    subst h2
    subst h3
    decide

/-- C9 (amended): for every filter string of the shape `op(col, null)` —
operator `eq` or `noteq`, arguments separated by a comma and a single
blank (the separator the splitter's `right[2..]` expects, used throughout
the parser's own tests), column name free of parentheses and commas —
the parser compiles the filter to an is-null (for `eq`) resp. is-not-null
(for `noteq`) predicate on the named column, for every schema, rather
than an equality comparison against a null literal. -/
theorem C9_eq_noteq_null_is_null_tests (colName : List Char)
    (schema : List (List Char × List Char))
    (hcol : ∀ c ∈ colName, c ≠ '(' ∧ c ≠ ')' ∧ c ≠ ',') :
    parse ("eq".toList ++ '(' :: (colName ++ [',', ' ', 'n', 'u', 'l', 'l', ')'])) schema =
      some (.isNull (.column colName)) ∧
    parse ("noteq".toList ++ '(' :: (colName ++ [',', ' ', 'n', 'u', 'l', 'l', ')'])) schema =
      some (.isNotNull (.column colName)) := by
  constructor
  · rw [parse]
    split
    next h =>
      rw [parse_filter_str_op_col_null _ _ (by decide) hcol (by decide)] at h
      exact absurd h (by simp)
    next op left right h =>
      rw [parse_filter_str_op_col_null _ _ (by decide) hcol (by decide)] at h
      simp only [Option.some.injEq, Prod.mk.injEq] at h
      obtain ⟨h1, h2, h3⟩ := h
      subst h1
      subst h2
      subst h3
      rw [if_pos (by decide : (['n', 'u', 'l', 'l'] : List Char) = "null".toList),
        if_pos rfl]
  · rw [parse]
    split
    next h =>
      rw [parse_filter_str_op_col_null _ _ (by decide) hcol (by decide)] at h
      exact absurd h (by simp)
    next op left right h =>
      rw [parse_filter_str_op_col_null _ _ (by decide) hcol (by decide)] at h
      simp only [Option.some.injEq, Prod.mk.injEq] at h
      obtain ⟨h1, h2, h3⟩ := h
      subst h1
      subst h2
      subst h3
      rw [if_pos (by decide : (['n', 'u', 'l', 'l'] : List Char) = "null".toList),
        if_neg (by decide : ¬("noteq".toList = "eq".toList)), if_pos rfl]

/-- Witness for the amended C9 theorem at column `a` and an empty schema. -/
theorem C9_eq_noteq_null_is_null_tests_witness :
    parse ("eq".toList ++ '(' :: (['a'] ++ [',', ' ', 'n', 'u', 'l', 'l', ')'])) [] =
      some (.isNull (.column ['a'])) ∧
    parse ("noteq".toList ++ '(' :: (['a'] ++ [',', ' ', 'n', 'u', 'l', 'l', ')'])) [] =
      some (.isNotNull (.column ['a'])) :=
  C9_eq_noteq_null_is_null_tests ['a'] [] (by decide)

end Filter

end LakeSoul
